import Mathlib

/-!
Shallow embedding of the raster canvas controller of `src/components/Artboard.tsx`
(repository umairkamal/Pose-Animator).

The component owns a fixed 512 x 256 canvas, a linear history of PNG data-URL
snapshots with a cursor (`history`, `historyIndex`), brush settings, an input
mode, and an in-flight pose-generation request.  We model:

* the surface bitmap as an inductive `Bitmap` recording the draw commands that
  produced it (`blank` = opaque white fill, `strokeTo` = one `draw` event that
  strokes a segment with the context settings current at that event,
  `pasted` = white fill followed by `drawImage` with a letterbox placement);
  the PNG data-URL encoding stored in `history` is lossless, so history
  entries are modelled as `Bitmap` values directly;
* React state as the record `AState`; every event handler of the component
  becomes one constructor of `Op` and one branch of `stepOp`.  The component
  mounts with `history = []`, `historyIndex = -1` and immediately runs
  `initializeCanvas`, so `initState` is the post-mount state and
  `historyIndex` is an integer as in the source;
* the asynchronous `handleGeneratePose` as two events: `genPose` (the click,
  which captures the `history`/`historyIndex` values closed over by the
  `saveState` callback of the issuing render) and `resolvePoseOk` /
  `resolvePoseErr` (the promise settling later).  The captured pair is the
  `pending` field: the source has no generation counter, and the `saveState`
  closure that eventually commits the fetched pose reads the history values
  of the render in which the request was issued.
-/

namespace Artboard

/-- A pointer position, as the `offsetX` / `offsetY` of a mouse event. -/
structure Point where
  x : ℚ
  y : ℚ
deriving DecidableEq

/-- A decoded image: its pixel dimensions plus a tag identifying its content. -/
structure ImgData where
  width : ℚ
  height : ℚ
  tag : ℕ
deriving DecidableEq

/-- The placement computed by the `img.onload` callback of
`loadPoseImageOntoCanvas`: destination rectangle `(dx, dy, drawWidth, drawHeight)`. -/
structure Placement where
  drawWidth : ℚ
  drawHeight : ℚ
  dx : ℚ
  dy : ℚ
deriving DecidableEq

/-- One `draw` (mousemove) event that actually stroked: the segment from the
previous pen position `last` to `target`, rendered with the context settings
in force at that event (`context.stroke()` paints with the current
`strokeStyle` / `lineWidth`; cap and join are always round). -/
structure Segment where
  last : Point
  target : Point
  smoothing : Bool
  color : String
  width : ℕ
deriving DecidableEq

/-- The surface bitmap, identified by the sequence of draw commands that
produced it.  `blank` is the opaque white fill of `initializeCanvas`;
`strokeTo prev seg` is the surface after one stroking `draw` event;
`pasted img pl` is a white fill followed by `drawImage img` at placement `pl`
(the body of `img.onload` in `loadPoseImageOntoCanvas`). -/
inductive Bitmap where
  | blank : Bitmap
  | strokeTo (prev : Bitmap) (seg : Segment) : Bitmap
  | pasted (img : ImgData) (pl : Placement) : Bitmap
deriving DecidableEq

/-- The input mode tabs of the component. -/
inductive InputMode where
  | draw
  | upload
  | prompt
deriving DecidableEq

/-- The fixed brush colour palette `COLORS` of the source. -/
def COLORS : List String :=
  ["#000000", "#EF4444", "#22C55E", "#3B82F6", "#EAB308", "#A855F7"]

/-- `BRUSH_SIZES.Small`. -/
def brushSizeSmall : ℕ := 3

/-- `BRUSH_SIZES.Medium`. -/
def brushSizeMedium : ℕ := 8

/-- `BRUSH_SIZES.Large`. -/
def brushSizeLarge : ℕ := 15

/-- The canvas width attribute of the source (`width="512"`). -/
def canvasW : ℚ := 512

/-- The canvas height attribute of the source (`height="256"`). -/
def canvasH : ℚ := 256

/-- The aspect-ratio-preserving placement computed in `img.onload` of
`loadPoseImageOntoCanvas`: if the canvas aspect exceeds the image aspect the
image is fitted to the full canvas height, otherwise to the full canvas
width; either way it is centred on both axes. -/
def letterbox (cw ch iw ih : ℚ) : Placement :=
  let canvasAspect := cw / ch
  let imgAspect := iw / ih
  let wh : ℚ × ℚ :=
    if canvasAspect > imgAspect then
      (ch * imgAspect, ch)
    else
      (cw, cw / imgAspect)
  { drawWidth := wh.1, drawHeight := wh.2,
    dx := (cw - wh.1) / 2, dy := (ch - wh.2) / 2 }

/-- The React state of the component after mount (plus the `pending` capture
for the one in-flight pose request, see the file comment). -/
structure AState where
  mode : InputMode
  brushColor : String
  brushSize : ℕ
  isSmoothing : Bool
  isDrawing : Bool
  lastPoint : Option Point
  surface : Bitmap
  history : List Bitmap
  historyIndex : ℤ
  isGeneratingPose : Bool
  errorMessage : Option String
  pending : Option (List Bitmap × ℤ)
deriving DecidableEq

/-- The events the component reacts to.  `importImage none` is an upload whose
data cannot be decoded (the `Image` never fires `load`; the source installs no
error handler).  `resolvePoseOk` / `resolvePoseErr` are the settling of the
promise awaited inside `handleGeneratePose`. -/
inductive Op where
  | clear
  | beginStroke (p : Point)
  | extendStroke (p : Point)
  | endStroke
  | undoOp
  | redoOp
  | setModeOp (m : InputMode)
  | setBrushColorOp (c : String)
  | setBrushSizeOp (n : ℕ)
  | setSmoothingOp (b : Bool)
  | importImage (input : Option ImgData)
  | genPose (promptText : String)
  | resolvePoseOk (img : ImgData)
  | resolvePoseErr (msg : String)

/-- The body of `saveState`: slice the history up to and including the cursor,
push the new snapshot, and move the cursor to the last entry.  Factored out
because the stale `saveState` closure run at pose resolution applies it to the
history values captured at request time. -/
def saveStateCore (history : List Bitmap) (historyIndex : ℤ) (snap : Bitmap) :
    List Bitmap × ℤ :=
  let newHistory := history.take (historyIndex + 1).toNat ++ [snap]
  (newHistory, (newHistory.length : ℤ) - 1)

/-- `saveState` of the source: commit the current canvas (`canvas.toDataURL`,
i.e. the current surface) as a new history entry. -/
def saveState (s : AState) : AState :=
  let r := saveStateCore s.history s.historyIndex s.surface
  { s with history := r.1, historyIndex := r.2 }

/-- `restoreCanvasFromHistory`: repaint the canvas from the snapshot at the
cursor; a no-op when the history is empty or the cursor is negative (and when
the cursor is past the end, `history[idx]` is undefined and `img.onload`
never fires). -/
def restoreFromHistory (s : AState) : AState :=
  if s.history.length = 0 ∨ s.historyIndex < 0 then s
  else
    match s.history.get? s.historyIndex.toNat with
    | some snap => { s with surface := snap }
    | none => s

/-- One step of the controller: each branch transcribes one event handler of
the source (`initializeCanvas`, `startDrawing`, `draw`, `stopDrawing`,
`handleUndo`, `handleRedo`, the setters, `handlePoseUpload` via
`loadPoseImageOntoCanvas`, and `handleGeneratePose` split into issue and
resolution). -/
def stepOp (s : AState) : Op → AState
  | Op.clear =>
      { s with surface := Bitmap.blank, history := [Bitmap.blank],
               historyIndex := 0 }
  | Op.beginStroke p =>
      if s.mode = InputMode.draw then
        { s with isDrawing := true, lastPoint := some p }
      else s
  | Op.extendStroke p =>
      match s.isDrawing, s.lastPoint with
      | true, some lp =>
          if s.mode = InputMode.draw then
            { s with
              surface := Bitmap.strokeTo s.surface
                { last := lp, target := p, smoothing := s.isSmoothing,
                  color := s.brushColor, width := s.brushSize },
              lastPoint := some p }
          else s
      | _, _ => s
  | Op.endStroke =>
      if s.isDrawing then
        saveState { s with isDrawing := false, lastPoint := none }
      else s
  | Op.undoOp =>
      if 0 < s.historyIndex then
        restoreFromHistory { s with historyIndex := s.historyIndex - 1 }
      else s
  | Op.redoOp =>
      if s.historyIndex < (s.history.length : ℤ) - 1 then
        restoreFromHistory { s with historyIndex := s.historyIndex + 1 }
      else s
  | Op.setModeOp m => { s with mode := m }
  | Op.setBrushColorOp c => { s with brushColor := c }
  | Op.setBrushSizeOp n => { s with brushSize := n }
  | Op.setSmoothingOp b => { s with isSmoothing := b }
  | Op.importImage input =>
      match input with
      | none => s
      | some img =>
          let pl := letterbox canvasW canvasH img.width img.height
          saveState { s with surface := Bitmap.pasted img pl }
  | Op.genPose promptText =>
      if promptText = "" then s
      else
        { s with isGeneratingPose := true, errorMessage := none,
                 pending := some (s.history, s.historyIndex) }
  | Op.resolvePoseOk img =>
      match s.pending with
      | none => s
      | some (h, i) =>
          let pl := letterbox canvasW canvasH img.width img.height
          let snap := Bitmap.pasted img pl
          let r := saveStateCore h i snap
          { s with surface := snap, history := r.1, historyIndex := r.2,
                   isGeneratingPose := false, pending := none }
  | Op.resolvePoseErr msg =>
      match s.pending with
      | none => s
      | some _ =>
          { s with errorMessage := some msg, isGeneratingPose := false,
                   pending := none }

/-- The state right after mount: the initial `useState` values followed by the
`initializeCanvas` effect. -/
def initState : AState :=
  { mode := InputMode.draw
    brushColor := "#000000"
    brushSize := brushSizeMedium
    isSmoothing := true
    isDrawing := false
    lastPoint := none
    surface := Bitmap.blank
    history := [Bitmap.blank]
    historyIndex := 0
    isGeneratingPose := false
    errorMessage := none
    pending := none }

/-- Run a list of events from a state. -/
def runFrom (s : AState) (ops : List Op) : AState :=
  ops.foldl stepOp s

/-- Run a list of events from the post-mount state. -/
def run (ops : List Op) : AState :=
  runFrom initState ops

/-- States reachable from the post-mount state by any sequence of events. -/
inductive Reachable : AState → Prop where
  | init : Reachable initState
  | step (s : AState) (op : Op) : Reachable s → Reachable (stepOp s op)

/-- A structural stand-in for the PNG payload of `canvas.toDataURL`. -/
def Bitmap.payload : Bitmap → String
  | Bitmap.blank => "blank"
  | Bitmap.strokeTo prev _ => Bitmap.payload prev ++ ";stroke"
  | Bitmap.pasted img _ => "pasted" ++ toString img.tag

/-- `canvas.toDataURL("image/png")` on a mounted canvas: a data URL, never
the empty string. -/
def Bitmap.toDataURL (b : Bitmap) : String :=
  "data:image/png;base64," ++ Bitmap.payload b

/-- JavaScript `x || y` on an optional string (`undefined` and `""` are both
falsy). -/
def jsOrEmptyString : Option String → String
  | none => ""
  | some s => if s = "" then "" else s

/-- `getImageData` of the imperative handle:
`canvasRef.current?.toDataURL("image/png") || ""`. -/
def getImageData (canvas : Option Bitmap) : String :=
  jsOrEmptyString (canvas.map Bitmap.toDataURL)

/-! Helper lemmas shared between the claim theorems. -/

theorem saveStateCore_fst (l : List Bitmap) (i : ℤ) (snap : Bitmap) :
    (saveStateCore l i snap).1 = l.take (i + 1).toNat ++ [snap] := rfl

theorem saveStateCore_snd (l : List Bitmap) (i : ℤ) (snap : Bitmap) :
    (saveStateCore l i snap).2 =
      ((l.take (i + 1).toNat ++ [snap]).length : ℤ) - 1 := rfl

theorem saveState_history (s : AState) :
    (saveState s).history = s.history.take (s.historyIndex + 1).toNat ++ [s.surface] := rfl

theorem saveState_historyIndex (s : AState) :
    (saveState s).historyIndex = ((saveState s).history.length : ℤ) - 1 := rfl

theorem saveState_pending (s : AState) : (saveState s).pending = s.pending := rfl

theorem saveState_surface (s : AState) : (saveState s).surface = s.surface := rfl

theorem restoreFromHistory_history (s : AState) :
    (restoreFromHistory s).history = s.history := by
  unfold restoreFromHistory
  split
  · rfl
  · split <;> rfl

theorem restoreFromHistory_historyIndex (s : AState) :
    (restoreFromHistory s).historyIndex = s.historyIndex := by
  unfold restoreFromHistory
  split
  · rfl
  · split <;> rfl

theorem restoreFromHistory_pending (s : AState) :
    (restoreFromHistory s).pending = s.pending := by
  unfold restoreFromHistory
  split
  · rfl
  · split <;> rfl

theorem redo_noop_of_at_end (s : AState)
    (h : s.historyIndex = (s.history.length : ℤ) - 1) :
    stepOp s Op.redoOp = s := by
  simp only [stepOp]
  rw [if_neg (by omega)]

/-- The data-URL prefix of every encoded surface has 22 characters, so the
encoding is never the empty string. -/
theorem toDataURL_ne_empty (b : Bitmap) : Bitmap.toDataURL b ≠ "" := by
  intro h
  have hl := congrArg String.length h
  rw [Bitmap.toDataURL, String.length_append] at hl
  have h22 : ("data:image/png;base64," : String).length = 22 := by decide
  have h0 : ("" : String).length = 0 := by decide
  omega

/-- The inductive invariant of the controller state: the cursor is inside the
history, the entry at index 0 is the blank snapshot, and any history capture
held by a pending pose request satisfies the same bounds. -/
def Inv (s : AState) : Prop :=
  0 ≤ s.historyIndex ∧
  s.historyIndex ≤ (s.history.length : ℤ) - 1 ∧
  s.history.head? = some Bitmap.blank ∧
  ∀ l i, s.pending = some (l, i) → 0 ≤ i ∧ l.head? = some Bitmap.blank

theorem saveStateCore_inv (l : List Bitmap) (i : ℤ) (snap : Bitmap)
    (hi : 0 ≤ i) (hh : l.head? = some Bitmap.blank) :
    0 ≤ (saveStateCore l i snap).2 ∧
    (saveStateCore l i snap).2 ≤ ((saveStateCore l i snap).1.length : ℤ) - 1 ∧
    (saveStateCore l i snap).1.head? = some Bitmap.blank := by
  obtain ⟨a, t, rfl⟩ : ∃ a t, l = a :: t := by
    cases l with
    | nil => simp at hh
    | cons a t => exact ⟨a, t, rfl⟩
  have ha : a = Bitmap.blank := by simpa using hh
  subst ha
  have htn : (i + 1).toNat = i.toNat + 1 := by omega
  rw [saveStateCore_fst, saveStateCore_snd, htn]
  simp [List.take_succ_cons]
  omega

theorem inv_initState : Inv initState := by
  refine ⟨by decide, by decide, by decide, ?_⟩
  intro l i h
  simp [initState] at h

theorem inv_stepOp (s : AState) (hs : Inv s) (op : Op) : Inv (stepOp s op) := by
  obtain ⟨h0, h1, h2, hp⟩ := hs
  cases op with
  | clear => exact ⟨by simp [stepOp], by simp [stepOp], by simp [stepOp], hp⟩
  | beginStroke p =>
      simp only [stepOp]
      split <;> exact ⟨h0, h1, h2, hp⟩
  | extendStroke p =>
      simp only [stepOp]
      split
      · split <;> exact ⟨h0, h1, h2, hp⟩
      · exact ⟨h0, h1, h2, hp⟩
  | endStroke =>
      simp only [stepOp]
      split
      · have hc := saveStateCore_inv s.history s.historyIndex s.surface h0 h2
        exact ⟨hc.1, hc.2.1, hc.2.2, hp⟩
      · exact ⟨h0, h1, h2, hp⟩
  | undoOp =>
      simp only [stepOp]
      split
      · refine ⟨?_, ?_, ?_, ?_⟩
        · rw [restoreFromHistory_historyIndex]; simp only; omega
        · rw [restoreFromHistory_historyIndex, restoreFromHistory_history]
          simp only
          omega
        · rw [restoreFromHistory_history]; exact h2
        · intro l i h
          rw [restoreFromHistory_pending] at h
          exact hp l i h
      · exact ⟨h0, h1, h2, hp⟩
  | redoOp =>
      simp only [stepOp]
      split
      · refine ⟨?_, ?_, ?_, ?_⟩
        · rw [restoreFromHistory_historyIndex]; simp only; omega
        · rw [restoreFromHistory_historyIndex, restoreFromHistory_history]
          simp only
          omega
        · rw [restoreFromHistory_history]; exact h2
        · intro l i h
          rw [restoreFromHistory_pending] at h
          exact hp l i h
      · exact ⟨h0, h1, h2, hp⟩
  | setModeOp m => exact ⟨h0, h1, h2, hp⟩
  | setBrushColorOp c => exact ⟨h0, h1, h2, hp⟩
  | setBrushSizeOp n => exact ⟨h0, h1, h2, hp⟩
  | setSmoothingOp b => exact ⟨h0, h1, h2, hp⟩
  | importImage input =>
      cases input with
      | none => exact ⟨h0, h1, h2, hp⟩
      | some img =>
          simp only [stepOp]
          have hc := saveStateCore_inv s.history s.historyIndex
            (Bitmap.pasted img (letterbox canvasW canvasH img.width img.height)) h0 h2
          exact ⟨hc.1, hc.2.1, hc.2.2, hp⟩
  | genPose promptText =>
      simp only [stepOp]
      split
      · exact ⟨h0, h1, h2, hp⟩
      · refine ⟨h0, h1, h2, ?_⟩
        intro l i h
        simp only [Option.some.injEq, Prod.mk.injEq] at h
        obtain ⟨hl, hi⟩ := h
        subst hl; subst hi
        exact ⟨h0, h2⟩
  | resolvePoseOk img =>
      simp only [stepOp]
      split
      · exact ⟨h0, h1, h2, hp⟩
      · rename_i l i heq
        obtain ⟨hi, hl⟩ := hp l i heq
        have hc := saveStateCore_inv l i
          (Bitmap.pasted img (letterbox canvasW canvasH img.width img.height)) hi hl
        refine ⟨hc.1, hc.2.1, hc.2.2, ?_⟩
        intro l' i' h
        simp at h
  | resolvePoseErr msg =>
      simp only [stepOp]
      split
      · exact ⟨h0, h1, h2, hp⟩
      · refine ⟨h0, h1, h2, ?_⟩
        intro l' i' h
        simp at h

theorem inv_reachable (s : AState) (hs : Reachable s) : Inv s := by
  induction hs with
  | init => exact inv_initState
  | step s op hr ih => exact inv_stepOp s ih op

/-! Claim theorems. -/

/-- C6: for every sequence of controller operations after initialization, the
history cursor satisfies `0 ≤ cursor ≤ history.length - 1`; undo, redo,
commit, and clear all preserve this bound. -/
theorem cursor_always_in_bounds (s : AState) (hs : Reachable s) :
    0 ≤ s.historyIndex ∧ s.historyIndex ≤ (s.history.length : ℤ) - 1 := by
  have h := inv_reachable s hs
  exact ⟨h.1, h.2.1⟩

/-- Witness for C6 at the state reached by drawing one stroke. -/
theorem cursor_always_in_bounds_witness :
    0 ≤ (stepOp (stepOp initState (Op.beginStroke ⟨10, 10⟩)) Op.endStroke).historyIndex ∧
    (stepOp (stepOp initState (Op.beginStroke ⟨10, 10⟩)) Op.endStroke).historyIndex ≤
      ((stepOp (stepOp initState (Op.beginStroke ⟨10, 10⟩)) Op.endStroke).history.length : ℤ) - 1 :=
  cursor_always_in_bounds _
    (Reachable.step _ Op.endStroke
      (Reachable.step _ (Op.beginStroke ⟨10, 10⟩) Reachable.init))

/-- C8: after initialization, every sequence of controller operations keeps a
history entry at index 0 equal to the blank surface snapshot. -/
theorem history_zero_always_blank (s : AState) (hs : Reachable s) :
    s.history.head? = some Bitmap.blank :=
  (inv_reachable s hs).2.2.1

/-- Witness for C8 at the state reached by an image import followed by undo. -/
theorem history_zero_always_blank_witness :
    (stepOp (stepOp initState (Op.importImage (some ⟨100, 200, 0⟩))) Op.undoOp).history.head? =
      some Bitmap.blank :=
  history_zero_always_blank _
    (Reachable.step _ Op.undoOp
      (Reachable.step _ (Op.importImage (some ⟨100, 200, 0⟩)) Reachable.init))

/-- C5: committing a snapshot slices the history at the cursor (pruning every
later snapshot), appends the new snapshot and moves the cursor to it; hence
immediately after a commit through `endStroke` or an image import, `redo` is
a no-op. -/
theorem commit_prunes_redo (s : AState) :
    (saveState s).history =
        s.history.take (s.historyIndex + 1).toNat ++ [s.surface] ∧
    (saveState s).historyIndex = ((saveState s).history.length : ℤ) - 1 ∧
    (s.isDrawing = true →
      stepOp (stepOp s Op.endStroke) Op.redoOp = stepOp s Op.endStroke) ∧
    (∀ img : ImgData,
      stepOp (stepOp s (Op.importImage (some img))) Op.redoOp =
        stepOp s (Op.importImage (some img))) := by
  refine ⟨rfl, rfl, ?_, ?_⟩
  · intro hd
    have he : stepOp s Op.endStroke =
        saveState { s with isDrawing := false, lastPoint := none } := by
      simp [stepOp, hd]
    rw [he]
    exact redo_noop_of_at_end _ (saveState_historyIndex _)
  · intro img
    exact redo_noop_of_at_end _ (saveState_historyIndex
      { s with surface :=
          Bitmap.pasted img (letterbox canvasW canvasH img.width img.height) })

/-- Witness for C5: after undoing past a committed stroke and then drawing a
new stroke, redo is a no-op. -/
theorem commit_prunes_redo_witness :
    stepOp (stepOp (run [Op.beginStroke ⟨10, 10⟩, Op.extendStroke ⟨20, 20⟩,
        Op.endStroke, Op.undoOp, Op.beginStroke ⟨30, 30⟩]) Op.endStroke) Op.redoOp =
      stepOp (run [Op.beginStroke ⟨10, 10⟩, Op.extendStroke ⟨20, 20⟩,
        Op.endStroke, Op.undoOp, Op.beginStroke ⟨30, 30⟩]) Op.endStroke :=
  (commit_prunes_redo _).2.2.1 (by decide)

/-- C2 counterexample: `clear` while a stroke is active does not abandon the
stroke.  After `beginStroke` then `clear`, the stroke is still active, a
subsequent `extendStroke` draws onto the cleared surface, and the following
`endStroke` commits a second history entry. -/
theorem clear_keeps_stroke_active_cex :
    (run [Op.beginStroke ⟨10, 10⟩, Op.clear]).isDrawing = true ∧
    (run [Op.beginStroke ⟨10, 10⟩, Op.clear, Op.extendStroke ⟨20, 20⟩]).surface ≠
      Bitmap.blank ∧
    (run [Op.beginStroke ⟨10, 10⟩, Op.clear, Op.extendStroke ⟨20, 20⟩,
        Op.endStroke]).history.length = 2 := by
  exact ⟨by decide, by decide, by decide⟩

/-- C2 amended: `clear` always succeeds — it resets the surface to blank and
the history to a single blank snapshot with cursor 0 — but it does not abandon
an active stroke: `isDrawing` and the last pen position are left unchanged, so
subsequent `extendStroke` calls still draw and the eventual `endStroke` still
commits. -/
theorem clear_total_but_keeps_stroke (s : AState) :
    (stepOp s Op.clear).surface = Bitmap.blank ∧
    (stepOp s Op.clear).history = [Bitmap.blank] ∧
    (stepOp s Op.clear).historyIndex = 0 ∧
    (stepOp s Op.clear).isDrawing = s.isDrawing ∧
    (stepOp s Op.clear).lastPoint = s.lastPoint :=
  ⟨rfl, rfl, rfl, rfl, rfl⟩

/-- C4 counterexample: an undecodable image input leaves the state completely
unchanged and in particular signals no error at all — no `DecodeError`
reaches the caller (the source installs no error handler on the `Image`). -/
theorem undecodable_import_silent_cex :
    stepOp initState (Op.importImage none) = initState ∧
    (stepOp initState (Op.importImage none)).errorMessage = none :=
  ⟨rfl, rfl⟩

/-- C4 amended: for every input to `importImage` that cannot be decoded, the
operation is a silent no-op — no error is signalled to the caller — and the
surface and history are left exactly as they were before the call: no partial
white-clear and no history entry is committed on failure. -/
theorem undecodable_import_noop (s : AState) :
    stepOp s (Op.importImage none) = s := rfl

/-- C3 counterexample: the brush colour at stroke start is `#000000`, yet
after a mid-stroke `setBrushColor` to `#EF4444` the next segment of the same
stroke is rendered with `#EF4444` — mid-stroke brush changes do affect pixels
drawn by the active stroke. -/
theorem mid_stroke_brush_change_cex :
    initState.brushColor = "#000000" ∧
    (run [Op.beginStroke ⟨10, 10⟩, Op.setBrushColorOp "#EF4444",
        Op.extendStroke ⟨20, 20⟩]).surface =
      Bitmap.strokeTo Bitmap.blank
        { last := ⟨10, 10⟩, target := ⟨20, 20⟩, smoothing := true,
          color := "#EF4444", width := 8 } :=
  ⟨rfl, by decide⟩

/-- C3 amended: every segment of a stroke is rendered with the brush colour,
width and smoothing flag in effect at the moment that segment is drawn (the
context is restyled immediately whenever a setting changes), not with the
values captured at stroke start; cap and join are always round. -/
theorem extend_uses_current_brush (s : AState) (p lp : Point)
    (hd : s.isDrawing = true) (hl : s.lastPoint = some lp)
    (hm : s.mode = InputMode.draw) :
    (stepOp s (Op.extendStroke p)).surface =
      Bitmap.strokeTo s.surface
        { last := lp, target := p, smoothing := s.isSmoothing,
          color := s.brushColor, width := s.brushSize } := by
  simp [stepOp, hd, hl, hm]

/-- Witness for C3 amended, at the state reached by starting a stroke and then
switching the brush colour. -/
theorem extend_uses_current_brush_witness :
    (stepOp (run [Op.beginStroke ⟨10, 10⟩, Op.setBrushColorOp "#EF4444"])
        (Op.extendStroke ⟨20, 20⟩)).surface =
      Bitmap.strokeTo (run [Op.beginStroke ⟨10, 10⟩, Op.setBrushColorOp "#EF4444"]).surface
        { last := ⟨10, 10⟩, target := ⟨20, 20⟩,
          smoothing := (run [Op.beginStroke ⟨10, 10⟩, Op.setBrushColorOp "#EF4444"]).isSmoothing,
          color := (run [Op.beginStroke ⟨10, 10⟩, Op.setBrushColorOp "#EF4444"]).brushColor,
          width := (run [Op.beginStroke ⟨10, 10⟩, Op.setBrushColorOp "#EF4444"]).brushSize } :=
  extend_uses_current_brush _ _ _ (by decide) (by decide) (by decide)

/-- C1 counterexample: issue `requestPoseFromPrompt "x"`, call `clear` before
the response resolves, then let it resolve — the surface is the fetched pose,
not the blank state, and the pose has been committed as a second history
entry. -/
theorem stale_pose_applied_after_clear_cex :
    (run [Op.genPose "x", Op.clear, Op.resolvePoseOk ⟨100, 200, 0⟩]).surface ≠
      Bitmap.blank ∧
    (run [Op.genPose "x", Op.clear, Op.resolvePoseOk ⟨100, 200, 0⟩]).history.length = 2 := by
  exact ⟨by decide, by decide⟩

/-- C1 amended: if `clear` runs between issuing a pose request and its
resolution, the stale fetched pose is still applied: the surface becomes the
letterboxed pose and a snapshot of it is committed to history, with the commit
computed from the history values captured when the request was issued (the
`saveState` closure of the issuing render), and the cursor moves to the new
entry. -/
theorem stale_pose_applied_after_clear (s : AState) (l : List Bitmap) (i : ℤ)
    (img : ImgData) (hp : s.pending = some (l, i)) :
    (stepOp (stepOp s Op.clear) (Op.resolvePoseOk img)).surface =
      Bitmap.pasted img (letterbox canvasW canvasH img.width img.height) ∧
    (stepOp (stepOp s Op.clear) (Op.resolvePoseOk img)).history =
      l.take (i + 1).toNat ++
        [Bitmap.pasted img (letterbox canvasW canvasH img.width img.height)] ∧
    (stepOp (stepOp s Op.clear) (Op.resolvePoseOk img)).historyIndex =
      ((stepOp (stepOp s Op.clear) (Op.resolvePoseOk img)).history.length : ℤ) - 1 := by
  refine ⟨?_, ?_, ?_⟩ <;> (simp [stepOp, hp, saveStateCore, List.length_take]; try omega)

/-- Witness for C1 amended, with the request issued from the freshly mounted
state. -/
theorem stale_pose_applied_after_clear_witness :
    (stepOp (stepOp (stepOp initState (Op.genPose "x")) Op.clear)
        (Op.resolvePoseOk ⟨100, 200, 0⟩)).surface =
      Bitmap.pasted ⟨100, 200, 0⟩ (letterbox canvasW canvasH 100 200) ∧
    (stepOp (stepOp (stepOp initState (Op.genPose "x")) Op.clear)
        (Op.resolvePoseOk ⟨100, 200, 0⟩)).history =
      [Bitmap.blank].take ((0 : ℤ) + 1).toNat ++
        [Bitmap.pasted ⟨100, 200, 0⟩ (letterbox canvasW canvasH 100 200)] ∧
    (stepOp (stepOp (stepOp initState (Op.genPose "x")) Op.clear)
        (Op.resolvePoseOk ⟨100, 200, 0⟩)).historyIndex =
      (((stepOp (stepOp (stepOp initState (Op.genPose "x")) Op.clear)
        (Op.resolvePoseOk ⟨100, 200, 0⟩)).history.length : ℤ)) - 1 :=
  stale_pose_applied_after_clear _ [Bitmap.blank] 0 ⟨100, 200, 0⟩ (by decide)

/-- C9: `getImageData` is total: it returns the empty string when the canvas
is absent, and otherwise the data-URL encoding of the current surface (which
is never confused with the absent case, being nonempty). -/
theorem getImageData_total (b : Bitmap) :
    getImageData none = "" ∧ getImageData (some b) = Bitmap.toDataURL b := by
  constructor
  · rfl
  · simp [getImageData, jsOrEmptyString, toDataURL_ne_empty b]

/-- C10: once the interaction mode leaves free draw, every `extendStroke` is a
complete no-op, yet `endStroke` of a still-active stroke commits the current
surface as a new history entry — shown in general and on a trace where the
committed snapshot is identical to its predecessor. -/
theorem mode_gated_extend_but_commit (s : AState) (p : Point)
    (hm : s.mode ≠ InputMode.draw) :
    stepOp s (Op.extendStroke p) = s ∧
    (s.isDrawing = true →
      (stepOp s Op.endStroke).history.length =
        (s.history.take (s.historyIndex + 1).toNat).length + 1) ∧
    (run [Op.beginStroke ⟨10, 10⟩, Op.setModeOp InputMode.upload,
        Op.extendStroke ⟨20, 20⟩, Op.endStroke]).history =
      [Bitmap.blank, Bitmap.blank] := by
  refine ⟨?_, ?_, by decide⟩
  · cases hd : s.isDrawing with
    | false => cases hl : s.lastPoint <;> simp [stepOp, hd, hl]
    | true => cases hl : s.lastPoint <;> simp [stepOp, hd, hl, hm]
  · intro hd
    simp [stepOp, hd, saveState_history]

/-- Witness for C10, at the state reached by starting a stroke and switching
to upload mode. -/
theorem mode_gated_extend_but_commit_witness :
    stepOp (run [Op.beginStroke ⟨10, 10⟩, Op.setModeOp InputMode.upload])
        (Op.extendStroke ⟨20, 20⟩) =
      run [Op.beginStroke ⟨10, 10⟩, Op.setModeOp InputMode.upload] ∧
    (stepOp (run [Op.beginStroke ⟨10, 10⟩, Op.setModeOp InputMode.upload])
        Op.endStroke).history.length =
      ((run [Op.beginStroke ⟨10, 10⟩, Op.setModeOp InputMode.upload]).history.take
        ((run [Op.beginStroke ⟨10, 10⟩, Op.setModeOp InputMode.upload]).historyIndex + 1).toNat).length + 1 :=
  ⟨(mode_gated_extend_but_commit _ ⟨20, 20⟩ (by decide)).1,
   (mode_gated_extend_but_commit _ ⟨20, 20⟩ (by decide)).2.1 (by decide)⟩

/-- C7: `importImage` letterboxes: if the surface aspect exceeds the image
aspect the content fills the surface height, otherwise the surface width; in
both cases the other dimension is scaled proportionally (aspect preserved),
the content fits inside the surface and is centred with equal bars on both
axes; a 100 x 200 image on the 512 x 256 surface is drawn 128 wide, 256 tall,
at dx = 192, dy = 0. -/
theorem import_letterbox_placement (cw ch iw ih : ℚ)
    (_hcw : 0 < cw) (hch : 0 < ch) (hiw : 0 < iw) (hih : 0 < ih) :
    (cw / ch > iw / ih →
      (letterbox cw ch iw ih).drawHeight = ch ∧
      (letterbox cw ch iw ih).drawWidth = ch * (iw / ih)) ∧
    (¬ cw / ch > iw / ih →
      (letterbox cw ch iw ih).drawWidth = cw ∧
      (letterbox cw ch iw ih).drawHeight = cw / (iw / ih)) ∧
    (letterbox cw ch iw ih).drawWidth * ih = (letterbox cw ch iw ih).drawHeight * iw ∧
    (letterbox cw ch iw ih).drawWidth ≤ cw ∧
    (letterbox cw ch iw ih).drawHeight ≤ ch ∧
    cw - ((letterbox cw ch iw ih).dx + (letterbox cw ch iw ih).drawWidth) =
      (letterbox cw ch iw ih).dx ∧
    ch - ((letterbox cw ch iw ih).dy + (letterbox cw ch iw ih).drawHeight) =
      (letterbox cw ch iw ih).dy ∧
    (∀ (s : AState) (img : ImgData),
      (stepOp s (Op.importImage (some img))).surface =
        Bitmap.pasted img (letterbox canvasW canvasH img.width img.height)) ∧
    letterbox 512 256 100 200 = ⟨128, 256, 192, 0⟩ := by
  by_cases hgt : cw / ch > iw / ih
  · have hw : (letterbox cw ch iw ih).drawWidth = ch * (iw / ih) := by
      simp [letterbox, hgt]
    have hh : (letterbox cw ch iw ih).drawHeight = ch := by
      simp [letterbox, hgt]
    have hdx : (letterbox cw ch iw ih).dx =
        (cw - (letterbox cw ch iw ih).drawWidth) / 2 := by
      simp [letterbox, hgt]
    have hdy : (letterbox cw ch iw ih).dy =
        (ch - (letterbox cw ch iw ih).drawHeight) / 2 := by
      simp [letterbox, hgt]
    refine ⟨fun _ => ⟨hh, hw⟩, fun hc => absurd hgt hc, ?_, ?_, ?_, ?_, ?_, fun s img => rfl, ?_⟩
    · rw [hw, hh]; field_simp
    · rw [hw]
      have : ch * (iw / ih) ≤ ch * (cw / ch) := by
        apply mul_le_mul_of_nonneg_left (le_of_lt hgt) (le_of_lt hch)
      calc ch * (iw / ih) ≤ ch * (cw / ch) := this
        _ = cw := by field_simp
    · rw [hh]
    · rw [hdx]; ring
    · rw [hdy]; ring
    · norm_num [letterbox]
  · have hw : (letterbox cw ch iw ih).drawWidth = cw := by
      simp [letterbox, hgt]
    have hh : (letterbox cw ch iw ih).drawHeight = cw / (iw / ih) := by
      simp [letterbox, hgt]
    have hdx : (letterbox cw ch iw ih).dx =
        (cw - (letterbox cw ch iw ih).drawWidth) / 2 := by
      simp [letterbox, hgt]
    have hdy : (letterbox cw ch iw ih).dy =
        (ch - (letterbox cw ch iw ih).drawHeight) / 2 := by
      simp [letterbox, hgt]
    have hle : cw / ch ≤ iw / ih := le_of_not_lt hgt
    refine ⟨fun hc => absurd hc hgt, fun _ => ⟨hw, hh⟩, ?_, ?_, ?_, ?_, ?_, fun s img => rfl, ?_⟩
    · rw [hw, hh]; field_simp
    · rw [hw]
    · rw [hh]
      have h1 : cw / (iw / ih) = cw * ih / iw := by
        rw [div_div_eq_mul_div]
      rw [h1, div_le_iff₀ hiw]
      have hle2 : cw * ih ≤ iw * ch := (div_le_div_iff₀ hch hih).mp hle
      linarith [hle2]
    · rw [hdx]; ring
    · rw [hdy]; ring
    · norm_num [letterbox]

/-- Witness for C7 at the dimensions named by the claim. -/
theorem import_letterbox_placement_witness :
    (letterbox 512 256 100 200).drawWidth * 200 =
      (letterbox 512 256 100 200).drawHeight * 100 ∧
    letterbox 512 256 100 200 = ⟨128, 256, 192, 0⟩ := by
  have h := import_letterbox_placement 512 256 100 200
    (by norm_num) (by norm_num) (by norm_num) (by norm_num)
  exact ⟨h.2.2.1, h.2.2.2.2.2.2.2.2⟩

end Artboard
